import Mathlib

namespace DsmrBackup

/-!
Verification development for the backup service of dsmr-reader
(`dsmr_backup/services/backup.py`).

The Python module is shallowly embedded: pure computations (command
construction, file-name rendering, path resolution) become Lean functions,
and the effectful functions (`check`, `create_full`, `create_partial`,
`on_backup_failed`) become functions returning a list of recorded effects
together with an `Except` value standing for "returned normally" versus
"raised".  External nondeterminism (the current time, the time-zone offset,
whether the target folder exists, the dump subprocess's exit status) is
passed in explicitly.

Machine dates are modelled linearly: an instant is a number of minutes
since the Unix epoch, a calendar date is a number of days since the epoch
(floor division by 1440), and calendar fields `(year, month, day)` are
recovered with the standard civil-from-days algorithm, matching Python's
`datetime.date`.
-/

/-- The ten decimal digit characters, used when rendering numbers into
backup file names (Python's `str` / Django's date formats). -/
def digitChar : Nat → Char
  | 0 => '0'
  | 1 => '1'
  | 2 => '2'
  | 3 => '3'
  | 4 => '4'
  | 5 => '5'
  | 6 => '6'
  | 7 => '7'
  | 8 => '8'
  | _ => '9'

/-- Big-endian decimal digits of `n` (empty for `0`); the first argument is
fuel making the `n / 10` recursion structural. -/
def toDecAux : Nat → Nat → List Char
  | 0, _ => []
  | fuel + 1, n => if n = 0 then [] else toDecAux fuel (n / 10) ++ [digitChar (n % 10)]

/-- Decimal rendering of a natural number, as Python's `str` produces it. -/
def decStr (n : Nat) : List Char := if n = 0 then ['0'] else toDecAux (n + 1) n

/-- Two-digit zero-padded rendering, as Django's `m` and `d` date formats
produce for months and days. -/
def pad2 (n : Nat) : List Char := if n < 10 then '0' :: decStr n else decStr n

/-- Reads a digit string back into the number it denotes; used only to
prove that the renderings above are injective. -/
def decodeDigits (xs : List Char) : Nat := xs.foldl (fun a c => a * 10 + (c.toNat - 48)) 0

/-!
POSIX path handling, embedding `os.path.join`, `os.path.normpath` and
`os.path.abspath` as used by `get_backup_directory`.
-/

/-- Splits a character list on `'/'`, as Python's `path.split('/')` does
(so the empty list splits to one empty component). -/
def splitSep : List Char → List (List Char)
  | [] => [[]]
  | c :: rest =>
    if c = '/' then [] :: splitSep rest
    else
      match splitSep rest with
      | [] => [[c]]
      | g :: gs => (c :: g) :: gs

/-- One step of `os.path.normpath`'s component walk: drop empty and `.`
components, pop on `..` (unless at the root, or at a run of leading `..`
in a relative path). -/
def normStep (initSl : Bool) (acc : List (List Char)) (comp : List Char) : List (List Char) :=
  if comp = [] ∨ comp = ['.'] then acc
  else if comp ≠ ['.', '.'] ∨ (initSl = false ∧ acc = []) ∨
      (acc ≠ [] ∧ acc.getLast? = some ['.', '.']) then acc ++ [comp]
  else if acc ≠ [] then acc.dropLast
  else acc

/-- The number of leading slashes `os.path.normpath` preserves: POSIX keeps
exactly two leading slashes special, any other run collapses to one. -/
def nslOf (cs : List Char) : Nat :=
  if cs.head? = some '/' then
    (if cs.take 2 = ['/', '/'] ∧ cs.take 3 ≠ ['/', '/', '/'] then 2 else 1)
  else 0

/-- The character-list computation of `os.path.normpath`: preserved
leading slashes, then the surviving components re-joined with `/`. -/
def normData (cs : List Char) : List Char :=
  List.replicate (nslOf cs) '/' ++
    List.intercalate ['/'] ((splitSep cs).foldl (normStep (cs.head? == some '/')) [])

/-- `os.path.normpath` for POSIX paths (an empty result becomes `.`). -/
def normpath (s : String) : String :=
  if normData s.data = [] then "." else ⟨normData s.data⟩

/-- `os.path.join` for two POSIX path segments. -/
def osJoin (a b : String) : String :=
  if b.data.head? = some '/' then b
  else if a.data = [] ∨ a.data.getLast? = some '/' then a ++ b
  else a ++ "/" ++ b

/-- `os.path.abspath` relative to an explicit working directory. -/
def abspath (cwd p : String) : String :=
  if p.data.head? = some '/' then normpath p else normpath (osJoin cwd p)

/-!
Calendar arithmetic.  An instant is a number of minutes since the Unix
epoch; `timezone.now()` is such an instant expressed in UTC, and
`timezone.localtime` adds the user's offset.  `.date()` of an aware
datetime is floor division by 1440, and calendar fields are recovered with
the standard civil-from-days algorithm (what Python's `datetime.date`
exposes as `.year`, `.month`, `.day`).
-/

/-- The calendar date (days since the epoch) of an instant, in the time
zone the instant is expressed in. -/
def dateOf (t : Int) : Int := Int.fdiv t 1440

/-- Gregorian `(year, month, day)` of a day number (civil-from-days). -/
def civilFromDays (z0 : Int) : Int × Nat × Nat :=
  let z := z0 + 719468
  let era : Int := Int.fdiv z 146097
  let doe : Int := z - era * 146097
  let yoe : Int := Int.fdiv (doe - Int.fdiv doe 1460 + Int.fdiv doe 36524 - Int.fdiv doe 146096) 365
  let y : Int := yoe + era * 400
  let doy : Int := doe - (365 * yoe + Int.fdiv yoe 4 - Int.fdiv yoe 100)
  let mp : Int := Int.fdiv (5 * doy + 2) 153
  let d : Int := doy - Int.fdiv (153 * mp + 2) 5 + 1
  let m : Int := if mp < 10 then mp + 3 else mp - 9
  (if m ≤ 2 then y + 1 else y, m.toNat, d.toNat)

/-- Full week-day names as Django's `l` date format prints them; day 0 of
the epoch (1970-01-01) was a Thursday. -/
def dayNames : List String :=
  ["Thursday", "Friday", "Saturday", "Sunday", "Monday", "Tuesday", "Wednesday"]

/-- Django `date_format(date, 'l')`. -/
def weekdayName (day : Int) : String := dayNames.getD (Int.emod day 7).toNat ""

/-- Django `date_format(date, 'Y')`: the year, unpadded decimal. -/
def yearStr (day : Int) : String := ⟨decStr (civilFromDays day).1.toNat⟩

/-- Django `date_format(date, 'm')`: the month, two digits. -/
def monthStr (day : Int) : String := ⟨pad2 (civilFromDays day).2.1⟩

/-- The `Y-m-d` rendering of a day, character-list form. -/
def ymdChars (y m d : Nat) : List Char := decStr y ++ '-' :: (pad2 m ++ '-' :: pad2 d)

/-- Django `date_format(date, 'Y-m-d')`. -/
def ymdStr (day : Int) : String :=
  ⟨ymdChars (civilFromDays day).1.toNat (civilFromDays day).2.1 (civilFromDays day).2.2⟩

/-!
The data model: database connection descriptor, the persisted settings
singleton, and the effects the module performs on the outside world.
-/

/-- Connection parameters plus configured dump-tool paths
(`settings.DATABASES['default']` and the `DSMRREADER_BACKUP_*` settings). -/
structure DbConfig where
  name : String
  host : String
  user : String
  password : String
  pgDump : String
  mysqlDump : String
  sqliteCli : String
  deriving DecidableEq

/-- The persisted `BackupSettings` singleton. -/
structure BackupSettings where
  daily_backup : Bool
  backup_time : Int
  latest_backup : Option Int
  folder : String
  deriving DecidableEq

/-- Observable side effects of the module, recorded in order. -/
inductive Effect where
  | logInfo (msg : String)
  | logDebug (msg : String)
  | logCritical (msg : String)
  | mkDirs (path : String)
  | openArchive (path : String) (compresslevel : Nat)
  | popen (cmd : List String) (env : List (String × String))
  | dashboard (msg : String)
  | saveSettings (s : BackupSettings)
  deriving DecidableEq

/-- The two exception kinds the module raises itself:
`NotImplementedError` for an unsupported backend and `IOError` for a dump
failure. -/
inductive BackupError where
  | notImplemented (vendor : String)
  | ioError
  deriving DecidableEq

deriving instance DecidableEq for Except

/-- External inputs of one `check` invocation. -/
structure CheckWorld where
  tzOffset : Int
  now : Int
  vendor : String
  cfg : DbConfig
  cwd : String
  base_dir : String
  statsTable : String
  partialFolderExists : Bool
  fullFolderExists : Bool
  partialExit : Int
  fullExit : Int
  deriving DecidableEq

/-- The environment the dump subprocess is launched with
(`env={'PGPASSWORD': ...}` in both `create_full` and `create_partial`):
a fresh mapping holding only `PGPASSWORD`. -/
def pgEnv (cfg : DbConfig) : List (String × String) := [("PGPASSWORD", cfg.password)]

/-- Effects of the `os.makedirs` guard shared by both backup functions. -/
def mkdirTrace (folderExists : Bool) (folder : String) : List Effect :=
  if folderExists then []
  else [Effect.logInfo (" - Creating non-existing backup folder: " ++ folder), Effect.mkDirs folder]

/-- Dump command for a full backup (`create_full` lines 88-116): an
if/elif chain on `connection.vendor`. -/
def fullCommand (vendor : String) (cfg : DbConfig) : Except BackupError (List String) :=
  if vendor = "postgresql" then
    Except.ok [cfg.pgDump, cfg.name, "--host=" ++ cfg.host, "--user=" ++ cfg.user]
  else if vendor = "mysql" then
    Except.ok [cfg.mysqlDump, "--compress", "--hex-blob", "--extended-insert", "--quick",
      "--host", cfg.host, "--user", cfg.user, "--password=" ++ cfg.password, cfg.name]
  else if vendor = "sqlite" then
    Except.ok [cfg.sqliteCli, cfg.name, ".dump"]
  else
    Except.error (BackupError.notImplemented vendor)

/-- Dump command for a backup restricted to the given tables
(`create_partial` lines 148-175); note there is no sqlite branch. -/
def partialCommand (vendor : String) (cfg : DbConfig) (tables : List String) :
    Except BackupError (List String) :=
  if vendor = "postgresql" then
    Except.ok ([cfg.pgDump, cfg.name, "--data-only", "--host=" ++ cfg.host,
      "--user=" ++ cfg.user] ++ tables.map (fun t => "--table=" ++ t))
  else if vendor = "mysql" then
    Except.ok ([cfg.mysqlDump, "--compress", "--compact", "--hex-blob", "--extended-insert",
      "--quick", "--host", cfg.host, "--user", cfg.user, "--password=" ++ cfg.password,
      cfg.name] ++ tables)
  else
    Except.error (BackupError.notImplemented vendor)

/-- The weekday-named file of a full backup
(`dsmrreader-{vendor}-backup-{l}.sql.gz`, joined onto the folder). -/
def full_backup_file (vendor folder : String) (utcDay : Int) : String :=
  osJoin folder ("dsmrreader-" ++ vendor ++ "-backup-" ++ weekdayName utcDay ++ ".sql.gz")

/-- The date-named file of a partial backup
(`dsmrreader-{vendor}-partial-backup-{Y-m-d}.sql.gz`, joined onto the folder). -/
def partial_backup_file (vendor folder : String) (utcDay : Int) : String :=
  osJoin folder ("dsmrreader-" ++ vendor ++ "-partial-backup-" ++ ymdStr utcDay ++ ".sql.gz")

/-- `on_backup_failed`: critical log of the exit code and captured stderr,
a dashboard notification, then `raise IOError`. -/
def on_backup_failed (returncode : Option Int) : List Effect × BackupError :=
  ([Effect.logCritical " - Unexpected exit code for backup",
    Effect.dashboard "Backup creation failed, please check the dsmr_backend logfile."],
   BackupError.ioError)

/-- `create_full(folder)`.  `utcDay` is `timezone.now().date()` and
`exitCode` the status the dump subprocess eventually exits with.

The exit-status test on line 130 of the source runs inside the
`with subprocess.Popen(...)` block, before `Popen.__exit__` has called
`wait()`; at that point `Popen.returncode` is still `None`, and Python's
`None != 0` is true.  The model records that by testing the unset
`returncode` (which is why `exitCode` is never consulted), and the
function body has no `return` statement, hence the `Unit` result. -/
def create_full (vendor : String) (cfg : DbConfig) (folder : String) (folderExists : Bool)
    (utcDay : Int) (exitCode : Int) : List Effect × Except BackupError Unit :=
  let backup_file := full_backup_file vendor folder utcDay
  let pre := mkdirTrace folderExists folder ++
    [Effect.logInfo (" - Creating new full backup: " ++ backup_file)]
  match fullCommand vendor cfg with
  | Except.error e => (pre, Except.error e)
  | Except.ok command =>
    let returncode : Option Int := none
    if returncode = some 0 then
      (pre ++ [Effect.openArchive backup_file 6, Effect.popen command (pgEnv cfg),
        Effect.logDebug " - Backup exit code",
        Effect.logInfo (" - Created and compressed full backup: " ++ backup_file)],
       Except.ok ())
    else
      (pre ++ [Effect.openArchive backup_file 6, Effect.popen command (pgEnv cfg),
        Effect.logDebug " - Backup exit code"] ++ (on_backup_failed returncode).1,
       Except.error (on_backup_failed returncode).2)

/-- `create_partial(folder, models_to_backup)`.  Here the exit-status test
(line 189) runs after the `with` block, so `Popen.__exit__` has waited and
`returncode` holds the real exit status; on success the destination path
is returned. -/
def createPartial (vendor : String) (cfg : DbConfig) (folder : String) (tables : List String)
    (folderExists : Bool) (utcDay : Int) (exitCode : Int) :
    List Effect × Except BackupError String :=
  let backup_file := partial_backup_file vendor folder utcDay
  let pre := mkdirTrace folderExists folder ++
    [Effect.logInfo (" - Creating new partial backup: " ++ backup_file)]
  match partialCommand vendor cfg tables with
  | Except.error e => (pre, Except.error e)
  | Except.ok command =>
    let returncode : Option Int := some exitCode
    if returncode = some 0 then
      (pre ++ [Effect.openArchive backup_file 9, Effect.popen command (pgEnv cfg),
        Effect.logDebug " - Backup exit code",
        Effect.logInfo (" - Created and compressed statistics backup: " ++ backup_file)],
       Except.ok backup_file)
    else
      (pre ++ [Effect.openArchive backup_file 9, Effect.popen command (pgEnv cfg),
        Effect.logDebug " - Backup exit code"] ++ (on_backup_failed returncode).1,
       Except.error (on_backup_failed returncode).2)

/-- The effective path `get_backup_directory` resolves: the override
argument, falling back to the persisted `folder` setting when the override
is absent or falsy (Python's `if not backup_directory`). -/
def effective_backup_directory (folderSetting : String) (override : Option String) : String :=
  match override with
  | none => folderSetting
  | some s => if s = "" then folderSetting else s

/-- `get_backup_directory(backup_directory=None)`. -/
def get_backup_directory (cwd base_dir folderSetting : String) (override : Option String) :
    String :=
  let backup_directory := effective_backup_directory folderSetting override
  if backup_directory.data.head? = some '/' then abspath cwd backup_directory
  else abspath cwd (osJoin (osJoin base_dir "..") backup_directory)

/-- Lines 43-60 of `check`: the backup cycle once all gates have passed —
partial backup into the `archive/Y/m` tree, then full backup into the base
directory, then re-read settings, stamp `latest_backup = now` and save. -/
def runBackupCycle (s : BackupSettings) (w : CheckWorld) :
    List Effect × Except BackupError BackupSettings :=
  let today := dateOf (w.now + w.tzOffset)
  let backupDir := get_backup_directory w.cwd w.base_dir s.folder none
  let archiveFolder := osJoin (osJoin (osJoin backupDir "archive") (yearStr today)) (monthStr today)
  let pr := createPartial w.vendor w.cfg archiveFolder [w.statsTable] w.partialFolderExists
    (dateOf w.now) w.partialExit
  match pr.2 with
  | Except.error e => (pr.1, Except.error e)
  | Except.ok _ =>
    let fr := create_full w.vendor w.cfg backupDir w.fullFolderExists (dateOf w.now) w.fullExit
    match fr.2 with
    | Except.error e => (pr.1 ++ fr.1, Except.error e)
    | Except.ok _ =>
      let s2 := { s with latest_backup := some w.now }
      (pr.1 ++ fr.1 ++ [Effect.saveSettings s2], Except.ok s2)

/-- The `already created a backup today` test of line 31: Python truthiness
of `latest_backup` plus equality of the UTC dates. -/
def alreadyToday (s : BackupSettings) (w : CheckWorld) : Bool :=
  match s.latest_backup with
  | some lb => dateOf lb == dateOf w.now
  | none => false

/-- `check()`: the scheduling gates, then the backup cycle.  The repeated
`timezone.now()` calls of the source all fall within one invocation and
are modelled as the single instant `w.now`. -/
def check (s : BackupSettings) (w : CheckWorld) :
    List Effect × Except BackupError BackupSettings :=
  if s.daily_backup = false then ([], Except.ok s)
  else if alreadyToday s w then ([], Except.ok s)
  else
    let next_backup_timestamp := dateOf (w.now + w.tzOffset) * 1440 + s.backup_time - w.tzOffset
    if s.latest_backup.isSome = true ∧ w.now < next_backup_timestamp then ([], Except.ok s)
    else runBackupCycle s w

/-- A concrete configuration used to instantiate the hypothesised
theorems. -/
def cfg0 : DbConfig :=
  ⟨"dsmrreader", "localhost", "dsmr", "secret",
   "/usr/bin/pg_dump", "/usr/bin/mysqldump", "/usr/bin/sqlite3"⟩

/-- A concrete settings record with no previous backup. -/
def s0 : BackupSettings := ⟨true, 780, none, "/var/backups"⟩

/-- A concrete world: UTC user, a moment shortly after the epoch (before
the 13:00 configured time), PostgreSQL, both dump processes exiting 0. -/
def w0 : CheckWorld :=
  ⟨0, 500, "postgresql", cfg0, "/", "/app/src", "dsmr_stats_daystatistics", false, true, 0, 0⟩

/-- A time zone 5 hours ahead of UTC, and instants chosen so that the
previous backup and the current moment share their local calendar date
(both on local day 20000) while their UTC dates differ. -/
def w1 : CheckWorld :=
  ⟨300, 28800060, "postgresql", cfg0, "/", "/app/src", "dsmr_stats_daystatistics",
   false, true, 0, 0⟩

def s1 : BackupSettings := ⟨true, 0, some 28799900, "/var/backups"⟩

/-!
Claims C1 and C2 — behaviour on a zero subprocess exit.  Because
`create_full` inspects `Popen.returncode` inside the `with` block (before
`wait()` has set it), the unset value compares unequal to 0 and the
failure path runs no matter how the dump exits.
-/

/-- Recognizes a settings write. -/
def isSaveEffect : Effect → Bool
  | Effect.saveSettings _ => true
  | _ => false

theorem digitChar_toNat {k : Nat} (h : k < 10) : (digitChar k).toNat = 48 + k := by
  interval_cases k <;> rfl

theorem toDecAux_zero (fuel : Nat) : toDecAux fuel 0 = [] := by
  cases fuel <;> simp [toDecAux]

theorem decodeDigits_append (xs : List Char) (c : Char) :
    decodeDigits (xs ++ [c]) = decodeDigits xs * 10 + (c.toNat - 48) := by
  simp [decodeDigits, List.foldl_append]

theorem decode_toDecAux : ∀ fuel n, n < fuel → decodeDigits (toDecAux fuel n) = n := by
  intro fuel
  induction fuel with
  | zero => intro n h; omega
  | succ f ih =>
    intro n h
    by_cases h0 : n = 0
    · subst h0; simp [toDecAux, decodeDigits]
    · have hd : n / 10 < n := Nat.div_lt_self (Nat.pos_of_ne_zero h0) (by norm_num)
      have hf : n / 10 < f := by omega
      have hm : n % 10 < 10 := Nat.mod_lt n (by norm_num)
      simp only [toDecAux, h0, if_false, decodeDigits_append, ih _ hf, digitChar_toNat hm]
      omega

theorem decode_decStr (n : Nat) : decodeDigits (decStr n) = n := by
  by_cases h0 : n = 0
  · subst h0; rfl
  · simp only [decStr, h0, if_false]
    exact decode_toDecAux (n + 1) n (Nat.lt_succ_self n)

theorem decStr_inj {a b : Nat} (h : decStr a = decStr b) : a = b := by
  have := congrArg decodeDigits h
  rwa [decode_decStr, decode_decStr] at this

theorem decode_pad2 (n : Nat) : decodeDigits (pad2 n) = n := by
  by_cases h : n < 10
  · simp only [pad2, h, if_true]
    have : decodeDigits ('0' :: decStr n) = decodeDigits (decStr n) := by
      simp [decodeDigits]
    rw [this, decode_decStr]
  · simp only [pad2, h, if_false]
    exact decode_decStr n

theorem pad2_inj {a b : Nat} (h : pad2 a = pad2 b) : a = b := by
  have := congrArg decodeDigits h
  rwa [decode_pad2, decode_pad2] at this

theorem toDecAux_len1 : ∀ fuel n, 0 < n → n < 10 → n < fuel → (toDecAux fuel n).length = 1 := by
  intro fuel n h1 h2 h3
  match fuel, h3 with
  | f + 1, _ =>
    have hz : n / 10 = 0 := Nat.div_eq_of_lt h2
    simp [toDecAux, show n ≠ 0 by omega, hz, toDecAux_zero]

theorem decStr_len1 {n : Nat} (h : n < 10) : (decStr n).length = 1 := by
  by_cases h0 : n = 0
  · subst h0; rfl
  · simp only [decStr, h0, if_false]
    exact toDecAux_len1 (n + 1) n (Nat.pos_of_ne_zero h0) h (Nat.lt_succ_self n)

theorem decStr_len2 {n : Nat} (h1 : 10 ≤ n) (h2 : n ≤ 99) : (decStr n).length = 2 := by
  have h0 : n ≠ 0 := by omega
  simp only [decStr, h0, if_false, toDecAux]
  have hd1 : 0 < n / 10 := Nat.div_pos h1 (by norm_num)
  have hd2 : n / 10 < 10 := by omega
  have hdf : n / 10 < n := Nat.div_lt_self (by omega) (by norm_num)
  simp [show n ≠ 0 from h0, List.length_append, toDecAux_len1 n (n / 10) hd1 hd2 hdf]

theorem pad2_len {n : Nat} (h : n ≤ 99) : (pad2 n).length = 2 := by
  by_cases h10 : n < 10
  · simp [pad2, h10, decStr_len1 h10]
  · simp [pad2, h10, decStr_len2 (by omega) h]

theorem decodeDigits_cons_zero (xs : List Char) :
    decodeDigits ('0' :: xs) = decodeDigits xs := by
  simp [decodeDigits]

/-- Every character produced by the decimal renderers is a digit. -/
theorem toDecAux_digits : ∀ fuel n c, c ∈ toDecAux fuel n → ∃ k, k < 10 ∧ c = digitChar k := by
  intro fuel
  induction fuel with
  | zero => intro n c h; simp [toDecAux] at h
  | succ f ih =>
    intro n c h
    by_cases h0 : n = 0
    · subst h0; simp [toDecAux] at h
    · simp only [toDecAux, h0, if_false, List.mem_append, List.mem_singleton] at h
      rcases h with h | h
      · exact ih _ _ h
      · exact ⟨n % 10, Nat.mod_lt n (by norm_num), h⟩

theorem decStr_digits {n : Nat} {c : Char} (h : c ∈ decStr n) : ∃ k, k < 10 ∧ c = digitChar k := by
  by_cases h0 : n = 0
  · subst h0; simp [decStr] at h; exact ⟨0, by norm_num, h⟩
  · simp only [decStr, h0, if_false] at h
    exact toDecAux_digits _ _ _ h

theorem pad2_digits {n : Nat} {c : Char} (h : c ∈ pad2 n) : ∃ k, k < 10 ∧ c = digitChar k := by
  by_cases h10 : n < 10
  · simp only [pad2, h10, if_true, List.mem_cons] at h
    rcases h with h | h
    · exact ⟨0, by norm_num, h⟩
    · exact decStr_digits h
  · simp only [pad2, h10, if_false] at h
    exact decStr_digits h

theorem digitChar_ne_slash {k : Nat} (h : k < 10) : digitChar k ≠ '/' := by
  interval_cases k <;> decide

theorem digitChar_ne_dash {k : Nat} (h : k < 10) : digitChar k ≠ '-' := by
  interval_cases k <;> decide

theorem decStr_ne_nil (n : Nat) : decStr n ≠ [] := by
  by_cases h0 : n = 0
  · subst h0; simp [decStr]
  · have := decode_decStr n
    intro hnil
    rw [hnil] at this
    simp [decodeDigits] at this
    exact h0 this.symm

theorem splitSep_ne_nil (cs : List Char) : splitSep cs ≠ [] := by
  cases cs with
  | nil => simp [splitSep]
  | cons c rest =>
    by_cases h : c = '/'
    · simp [splitSep, h]
    · simp only [splitSep, h, if_false]
      rcases hs : splitSep rest with _ | ⟨g, gs⟩ <;> simp

theorem splitSep_append (xs ys : List Char) :
    splitSep (xs ++ '/' :: ys) = splitSep xs ++ splitSep ys := by
  induction xs with
  | nil => simp [splitSep]
  | cons c rest ih =>
    by_cases h : c = '/'
    · simp [splitSep, h, ih]
    · rcases hs : splitSep rest with _ | ⟨g, gs⟩
      · exact absurd hs (splitSep_ne_nil rest)
      · rw [show (c :: rest) ++ '/' :: ys = c :: (rest ++ '/' :: ys) from rfl]
        simp only [splitSep, h, if_false]
        rw [ih, hs]
        simp

theorem splitSep_no_sep {cs : List Char} (h : ∀ c ∈ cs, c ≠ '/') : splitSep cs = [cs] := by
  induction cs with
  | nil => rfl
  | cons c rest ih =>
    have hc : c ≠ '/' := h c (List.mem_cons_self c rest)
    have hrest : ∀ x ∈ rest, x ≠ '/' := fun x hx => h x (List.mem_cons_of_mem c hx)
    simp only [splitSep, hc, if_false, ih hrest]

theorem normStep_push {initSl : Bool} {acc : List (List Char)} {comp : List Char}
    (h1 : comp ≠ []) (h2 : comp ≠ ['.']) (h3 : comp ≠ ['.', '.']) :
    normStep initSl acc comp = acc ++ [comp] := by
  simp [normStep, h1, h2, h3]

theorem normStep_pop {initSl : Bool} {acc : List (List Char)} {comp : List Char}
    (h1 : comp ≠ []) (h2 : comp ≠ ['.']) (h3 : comp ≠ ['.', '.']) :
    normStep initSl (normStep initSl acc comp) ['.', '.'] = acc := by
  rw [normStep_push h1 h2 h3]
  have hlast : (acc ++ [comp]).getLast? = some comp := List.getLast?_concat acc
  have hne : acc ++ [comp] ≠ [] := by simp
  simp only [normStep]
  rw [if_neg (by simp), if_neg, if_pos hne, List.dropLast_concat]
  intro hcase
  rcases hcase with hc | ⟨_, hacc⟩ | ⟨_, hl⟩
  · exact hc rfl
  · exact hne hacc
  · rw [hlast] at hl
    exact h3 (Option.some.inj hl)

theorem nslOf_congr {cs ds : List Char} (h : cs.take 3 = ds.take 3) : nslOf cs = nslOf ds := by
  have hh : cs.head? = ds.head? := by
    cases cs with
    | nil =>
      cases ds with
      | nil => rfl
      | cons d ds' => simp at h
    | cons c cs' =>
      cases ds with
      | nil => simp at h
      | cons d ds' =>
        simp only [List.take_succ_cons] at h
        simp [List.head?, (List.cons.injEq .. ▸ h : _ ∧ _).1]
  have h2 : cs.take 2 = ds.take 2 := by
    have : (cs.take 3).take 2 = (ds.take 3).take 2 := by rw [h]
    simpa [List.take_take] using this
  simp [nslOf, hh, h2, h]

/-!
Helper lemmas about the argument strings the commands are built from.
-/

theorem head_of_append {p : String} {c : Char} (hp : p.data.head? = some c) (t : String) :
    ((p ++ t).data).head? = some c := by
  rw [String.data_append]
  cases hd : p.data with
  | nil => rw [hd] at hp; simp at hp
  | cons a as =>
    rw [hd] at hp
    simp only [List.head?] at hp
    simp [Option.some.inj hp]

theorem ne_append_of_head {s p : String} {c : Char} (hp : p.data.head? = some c)
    (hs : s.data.head? ≠ some c) (t : String) : s ≠ p ++ t := by
  intro h
  exact hs (h ▸ head_of_append hp t)

theorem hostflag_ne_tableflag (a b : String) : ("--host=" ++ a) ≠ ("--table=" ++ b) := by
  intro h
  have h2 := congrArg String.data h
  rw [String.data_append, String.data_append] at h2
  rw [show ("--host=" : String).data = ['-', '-', 'h', 'o', 's', 't', '='] from rfl,
    show ("--table=" : String).data = ['-', '-', 't', 'a', 'b', 'l', 'e', '='] from rfl] at h2
  simp only [List.cons_append, List.cons.injEq] at h2
  exact absurd h2.2.2.1 (by decide)

theorem userflag_ne_tableflag (a b : String) : ("--user=" ++ a) ≠ ("--table=" ++ b) := by
  intro h
  have h2 := congrArg String.data h
  rw [String.data_append, String.data_append] at h2
  rw [show ("--user=" : String).data = ['-', '-', 'u', 's', 'e', 'r', '='] from rfl,
    show ("--table=" : String).data = ['-', '-', 't', 'a', 'b', 'l', 'e', '='] from rfl] at h2
  simp only [List.cons_append, List.cons.injEq] at h2
  exact absurd h2.2.2.1 (by decide)

theorem dataonly_ne_tableflag (b : String) : ("--data-only" : String) ≠ ("--table=" ++ b) := by
  intro h
  have h2 := congrArg String.data h
  rw [String.data_append] at h2
  rw [show ("--data-only" : String).data
      = ['-', '-', 'd', 'a', 't', 'a', '-', 'o', 'n', 'l', 'y'] from rfl,
    show ("--table=" : String).data = ['-', '-', 't', 'a', 'b', 'l', 'e', '='] from rfl] at h2
  simp only [List.cons_append, List.cons.injEq] at h2
  exact absurd h2.2.2.1 (by decide)

theorem hostflag_ne_pw (a b : String) : ("--host=" ++ a) ≠ ("--password=" ++ b) := by
  intro h
  have h2 := congrArg String.data h
  rw [String.data_append, String.data_append] at h2
  rw [show ("--host=" : String).data = ['-', '-', 'h', 'o', 's', 't', '='] from rfl,
    show ("--password=" : String).data
      = ['-', '-', 'p', 'a', 's', 's', 'w', 'o', 'r', 'd', '='] from rfl] at h2
  simp only [List.cons_append, List.cons.injEq] at h2
  exact absurd h2.2.2.1 (by decide)

theorem tableflag_head (t : String) : (("--table=" ++ t).data).head? = some '-' :=
  head_of_append (show ("--table=" : String).data.head? = some '-' from rfl) t

/-!
Claim C5 — dump-command construction is a pure function of
`(vendor, scope, table set)`, with the stated shapes per backend.
-/

/-- Claim C5: for `(postgresql, full)` the command carries `--host=` and
`--user=` flags and no `--table=` flag; for `(postgresql, partial)` with
table set `{statistics_day}` it carries `--data-only` and exactly one
`--table=statistics_day`; `(sqlite, partial)` and any unrecognized vendor
in either scope yield the unsupported-backend error.  The hypotheses say
that the configured dump-tool path and database name are not themselves
spelled like `--table=` flags. -/
theorem C5_command_construction (cfg : DbConfig)
    (h1 : cfg.pgDump.data.head? ≠ some '-') (h2 : cfg.name.data.head? ≠ some '-') :
    (∃ cmd, fullCommand "postgresql" cfg = Except.ok cmd ∧
      ("--host=" ++ cfg.host) ∈ cmd ∧ ("--user=" ++ cfg.user) ∈ cmd ∧
      ∀ t, ("--table=" ++ t) ∉ cmd) ∧
    (∃ cmd, partialCommand "postgresql" cfg ["statistics_day"] = Except.ok cmd ∧
      ("--data-only" : String) ∈ cmd ∧ cmd.count "--table=statistics_day" = 1 ∧
      ∀ t, t ≠ "statistics_day" → ("--table=" ++ t) ∉ cmd) ∧
    (∀ tables, partialCommand "sqlite" cfg tables
      = Except.error (BackupError.notImplemented "sqlite")) ∧
    (∀ v, v ≠ "postgresql" → v ≠ "mysql" → v ≠ "sqlite" →
      fullCommand v cfg = Except.error (BackupError.notImplemented v)) ∧
    (∀ v tables, v ≠ "postgresql" → v ≠ "mysql" →
      partialCommand v cfg tables = Except.error (BackupError.notImplemented v)) := by
  have hdash : ("--table=" : String).data.head? = some '-' := rfl
  refine ⟨⟨_, rfl, ?_, ?_, ?_⟩, ⟨_, rfl, ?_, ?_, ?_⟩, ?_, ?_, ?_⟩
  · simp
  · simp
  · intro t
    simp only [List.mem_cons, List.not_mem_nil, or_false]
    push_neg
    refine ⟨?_, ?_, ?_, ?_⟩
    · exact fun hc => ne_append_of_head hdash h1 t hc.symm
    · exact fun hc => ne_append_of_head hdash h2 t hc.symm
    · exact fun hc => hostflag_ne_tableflag cfg.host t hc.symm
    · exact fun hc => userflag_ne_tableflag cfg.user t hc.symm
  · simp
  · have hkey : ("--table=" ++ "statistics_day" : String) = "--table=statistics_day" := rfl
    have n1 : cfg.pgDump ≠ ("--table=statistics_day" : String) := fun hc =>
      ne_append_of_head hdash h1 "statistics_day" (hkey ▸ hc)
    have n2 : cfg.name ≠ ("--table=statistics_day" : String) := fun hc =>
      ne_append_of_head hdash h2 "statistics_day" (hkey ▸ hc)
    have n3 : ("--data-only" : String) ≠ ("--table=statistics_day" : String) := by decide
    have n4 : ("--host=" ++ cfg.host) ≠ ("--table=statistics_day" : String) := fun hc =>
      hostflag_ne_tableflag cfg.host "statistics_day" (hkey ▸ hc)
    have n5 : ("--user=" ++ cfg.user) ≠ ("--table=statistics_day" : String) := fun hc =>
      userflag_ne_tableflag cfg.user "statistics_day" (hkey ▸ hc)
    simp [List.count_append, List.count_cons, n1, n2, n3, n4, n5, hkey]
  · intro t ht
    simp only [List.map_cons, List.map_nil, List.mem_append, List.mem_cons, List.mem_singleton,
      List.not_mem_nil, or_false]
    push_neg
    refine ⟨⟨?_, ?_, ?_, ?_, ?_⟩, ?_⟩
    · exact fun hc => ne_append_of_head hdash h1 t hc.symm
    · exact fun hc => ne_append_of_head hdash h2 t hc.symm
    · exact fun hc => dataonly_ne_tableflag t hc.symm
    · exact fun hc => hostflag_ne_tableflag cfg.host t hc.symm
    · exact fun hc => userflag_ne_tableflag cfg.user t hc.symm
    · intro hc
      have hd := congrArg String.data hc
      rw [String.data_append, String.data_append] at hd
      have hparts := List.append_inj hd rfl
      exact ht (String.ext hparts.2)
  · intro tables; rfl
  · intro v hv1 hv2 hv3; simp [fullCommand, hv1, hv2, hv3]
  · intro v tables hv1 hv2; simp [partialCommand, hv1, hv2]

/-- Claim C5 witness: the hypotheses hold of a concrete configuration and
the theorem applies to it. -/
theorem C5_command_construction_witness :
    cfg0.pgDump.data.head? ≠ some '-' ∧ cfg0.name.data.head? ≠ some '-' ∧
    (∀ tables, partialCommand "sqlite" cfg0 tables
      = Except.error (BackupError.notImplemented "sqlite")) :=
  ⟨by decide, by decide, (C5_command_construction cfg0 (by decide) (by decide)).2.2.1⟩

/-!
Claims C6 and C10 — how the database password travels: never in the
PostgreSQL argument vector, always in the fresh `PGPASSWORD`-only
environment; in the MySQL argument vector as a `--password=` flag.
-/

theorem popen_env_full {vendor : String} {cfg : DbConfig} {folder : String} {fe : Bool}
    {u x : Int} {cmd : List String} {env : List (String × String)}
    (h : Effect.popen cmd env ∈ (create_full vendor cfg folder fe u x).1) :
    env = pgEnv cfg := by
  rcases hfc : fullCommand vendor cfg with e | c
  · simp only [create_full, hfc, mkdirTrace] at h
    split at h <;> simp at h
  · simp only [create_full, hfc, mkdirTrace, on_backup_failed] at h
    split at h <;> simp at h <;> exact h.2

theorem popen_env_partial {vendor : String} {cfg : DbConfig} {folder : String}
    {tables : List String} {fe : Bool} {u x : Int} {cmd : List String}
    {env : List (String × String)}
    (h : Effect.popen cmd env ∈ (createPartial vendor cfg folder tables fe u x).1) :
    env = pgEnv cfg := by
  rcases hfc : partialCommand vendor cfg tables with e | c
  · simp only [createPartial, hfc, mkdirTrace] at h
    split at h <;> simp at h
  · simp only [createPartial, hfc, mkdirTrace, on_backup_failed] at h
    split at h <;> split at h <;> simp at h <;> exact h.2

/-- Claim C10: whenever a dump subprocess is launched — any vendor, either
scope — its environment mapping is exactly the one-variable mapping
`PGPASSWORD = password`; the parent environment is not inherited. -/
theorem C10_subprocess_env (vendor : String) (cfg : DbConfig) (folder : String)
    (tables : List String) (fe : Bool) (u x : Int) (cmd : List String)
    (env : List (String × String))
    (h : Effect.popen cmd env ∈ (create_full vendor cfg folder fe u x).1 ∨
      Effect.popen cmd env ∈ (createPartial vendor cfg folder tables fe u x).1) :
    env = [("PGPASSWORD", cfg.password)] := by
  rcases h with h | h
  · exact popen_env_full h
  · exact popen_env_partial h

/-- Claim C10 witness: a concrete sqlite full-scope launch, whose recorded
environment the theorem pins down. -/
theorem C10_subprocess_env_witness :
    ([("PGPASSWORD", "secret")] : List (String × String)) = [("PGPASSWORD", cfg0.password)] :=
  C10_subprocess_env "sqlite" cfg0 "/var/backups" [] true 0 0
    [cfg0.sqliteCli, cfg0.name, ".dump"] [("PGPASSWORD", "secret")]
    (Or.inl (by decide))

/-- Claim C6: the PostgreSQL argument vectors never carry the password
(it rides in the environment instead — the recorded `popen` effect shows
the exact vector and the `PGPASSWORD` mapping), while the MySQL vectors
carry it as a `--password=` flag.  The hypotheses say the password does
not dash-collide with the flag strings nor equal the tool path or
database name. -/
theorem C6_password_handling (cfg : DbConfig) (folder : String) (fe : Bool) (u x : Int)
    (hpw : cfg.password.data.head? ≠ some '-')
    (hn1 : cfg.password ≠ cfg.pgDump) (hn2 : cfg.password ≠ cfg.name) :
    (∀ cmd, fullCommand "postgresql" cfg = Except.ok cmd → cfg.password ∉ cmd) ∧
    (∀ tables cmd, partialCommand "postgresql" cfg tables = Except.ok cmd →
      cfg.password ∉ cmd) ∧
    (∀ cmd, fullCommand "mysql" cfg = Except.ok cmd →
      ("--password=" ++ cfg.password) ∈ cmd) ∧
    (∀ tables cmd, partialCommand "mysql" cfg tables = Except.ok cmd →
      ("--password=" ++ cfg.password) ∈ cmd) ∧
    Effect.popen [cfg.pgDump, cfg.name, "--host=" ++ cfg.host, "--user=" ++ cfg.user]
      [("PGPASSWORD", cfg.password)] ∈ (create_full "postgresql" cfg folder fe u x).1 := by
  have hhost : cfg.password ≠ "--host=" ++ cfg.host :=
    ne_append_of_head (show ("--host=" : String).data.head? = some '-' from rfl) hpw cfg.host
  have huser : cfg.password ≠ "--user=" ++ cfg.user :=
    ne_append_of_head (show ("--user=" : String).data.head? = some '-' from rfl) hpw cfg.user
  have hdata : cfg.password ≠ "--data-only" := by
    intro hc
    exact hpw (by rw [hc]; rfl)
  refine ⟨?_, ?_, ?_, ?_, ?_⟩
  · intro cmd hcmd
    rw [show fullCommand "postgresql" cfg
      = Except.ok [cfg.pgDump, cfg.name, "--host=" ++ cfg.host, "--user=" ++ cfg.user]
      from rfl] at hcmd
    cases Except.ok.inj hcmd
    simp only [List.mem_cons, List.not_mem_nil, or_false]
    push_neg
    exact ⟨hn1, hn2, hhost, huser⟩
  · intro tables cmd hcmd
    rw [show partialCommand "postgresql" cfg tables
      = Except.ok ([cfg.pgDump, cfg.name, "--data-only", "--host=" ++ cfg.host,
        "--user=" ++ cfg.user] ++ tables.map (fun t => "--table=" ++ t)) from rfl] at hcmd
    cases Except.ok.inj hcmd
    simp only [List.mem_append, List.mem_cons, List.not_mem_nil, or_false, List.mem_map,
      not_or]
    refine ⟨⟨hn1, hn2, hdata, hhost, huser⟩, ?_⟩
    intro ⟨t, _, hteq⟩
    exact ne_append_of_head (show ("--table=" : String).data.head? = some '-' from rfl)
      hpw t hteq.symm
  · intro cmd hcmd
    cases Except.ok.inj hcmd
    simp
  · intro tables cmd hcmd
    rw [show partialCommand "mysql" cfg tables
      = Except.ok ([cfg.mysqlDump, "--compress", "--compact", "--hex-blob",
        "--extended-insert", "--quick", "--host", cfg.host, "--user", cfg.user,
        "--password=" ++ cfg.password, cfg.name] ++ tables) from rfl] at hcmd
    cases Except.ok.inj hcmd
    simp
  · simp [create_full, show fullCommand "postgresql" cfg
      = Except.ok [cfg.pgDump, cfg.name, "--host=" ++ cfg.host, "--user=" ++ cfg.user]
      from rfl, mkdirTrace, on_backup_failed, pgEnv]

/-- Claim C6 witness. -/
theorem C6_password_handling_witness :
    cfg0.password.data.head? ≠ some '-' ∧ cfg0.password ≠ cfg0.pgDump ∧
    cfg0.password ≠ cfg0.name ∧
    Effect.popen [cfg0.pgDump, cfg0.name, "--host=" ++ cfg0.host, "--user=" ++ cfg0.user]
      [("PGPASSWORD", cfg0.password)] ∈ (create_full "postgresql" cfg0 "/var/backups" true 0 0).1 :=
  ⟨by decide, by decide, by decide,
   (C6_password_handling cfg0 "/var/backups" true 0 0 (by decide) (by decide) (by decide)).2.2.2.2⟩

/-!
Claim C9 — with an unsupported vendor the unsupported-backend error is
raised only after the destination directory has been created: the
`os.makedirs` effect is recorded, and no subprocess or archive effect is.
-/

/-- Claim C9: for an unrecognized vendor (and, for the partial scope, also
sqlite) invoked with an absent destination folder, the whole recorded
trace is the folder creation followed by the backup-file log line, and
the result is the unsupported-backend error — so the directory side
effect happens, while no `popen` and no archive open do. -/
theorem C9_mkdir_before_error (vendor : String) (cfg : DbConfig) (folder : String)
    (tables : List String) (u x : Int)
    (h1 : vendor ≠ "postgresql") (h2 : vendor ≠ "mysql") :
    (createPartial vendor cfg folder tables false u x
      = ([Effect.logInfo (" - Creating non-existing backup folder: " ++ folder),
          Effect.mkDirs folder,
          Effect.logInfo (" - Creating new partial backup: "
            ++ partial_backup_file vendor folder u)],
         Except.error (BackupError.notImplemented vendor))) ∧
    (vendor ≠ "sqlite" →
      create_full vendor cfg folder false u x
        = ([Effect.logInfo (" - Creating non-existing backup folder: " ++ folder),
            Effect.mkDirs folder,
            Effect.logInfo (" - Creating new full backup: "
              ++ full_backup_file vendor folder u)],
           Except.error (BackupError.notImplemented vendor))) := by
  constructor
  · simp [createPartial, partialCommand, h1, h2, mkdirTrace]
  · intro h3
    simp [create_full, fullCommand, h1, h2, h3, mkdirTrace]

/-- Claim C9 witness: a concrete unrecognized vendor. -/
theorem C9_mkdir_before_error_witness :
    createPartial "oracle" cfg0 "/var/backups" ["t"] false 0 0
      = ([Effect.logInfo (" - Creating non-existing backup folder: /var/backups"),
          Effect.mkDirs "/var/backups",
          Effect.logInfo (" - Creating new partial backup: "
            ++ partial_backup_file "oracle" "/var/backups" 0)],
         Except.error (BackupError.notImplemented "oracle")) := by
  have h := (C9_mkdir_before_error "oracle" cfg0 "/var/backups" ["t"] 0 0
    (by decide) (by decide)).1
  simpa using h

/-!
Claims about the scheduler gates of `check`.
-/

/-- When the daily flag is on and no backup has ever completed, every gate
of `check` falls through to the backup cycle. -/
theorem check_due {s : BackupSettings} (w : CheckWorld)
    (h1 : s.daily_backup = true) (h2 : s.latest_backup = none) :
    check s w = runBackupCycle s w := by
  simp [check, alreadyToday, h1, h2]

/-- Claim C4: with `daily_backup` enabled and `latest_backup` null, `check`
runs the backup cycle immediately — for every configured `backup_time`,
current instant and time-zone offset (the first-run bypass). -/
theorem C4_first_run_bypass (s : BackupSettings) (w : CheckWorld)
    (h1 : s.daily_backup = true) (h2 : s.latest_backup = none) :
    check s w = runBackupCycle s w :=
  check_due w h1 h2

/-- Claim C4 witness: at `w0` the configured backup time (13:00) has not
been reached, yet the cycle runs because no backup exists. -/
theorem C4_first_run_bypass_witness : check s0 w0 = runBackupCycle s0 w0 :=
  C4_first_run_bypass s0 w0 rfl rfl

/-- Claim C3 amended: the `already run today` gate compares the dates in
UTC — when `latest_backup` is non-null and its UTC calendar date equals
the current UTC date, `check` stops with no effects and the settings
unchanged, regardless of `backup_time`. -/
theorem C3_already_today_utc (s : BackupSettings) (w : CheckWorld) (t : Int)
    (h1 : s.latest_backup = some t) (h2 : dateOf t = dateOf w.now) :
    check s w = ([], Except.ok s) := by
  by_cases hd : s.daily_backup = true
  · simp [check, alreadyToday, h1, h2, hd]
  · simp [check, Bool.not_eq_true _ ▸ hd]

/-- Claim C3 amended witness. -/
theorem C3_already_today_utc_witness :
    check ⟨true, 780, some 200, "/var/backups"⟩ w0
      = ([], Except.ok ⟨true, 780, some 200, "/var/backups"⟩) :=
  C3_already_today_utc _ w0 200 rfl (by decide)

/-- Claim C3 counterexample: the spec reads the `already run today` gate
as comparing dates in the user's local time zone.  Here the stored
`latest_backup` and the current moment fall on the same local calendar
day, so the claim demands that `check` stop without performing any
backup; the code compares the UTC dates (which differ) and proceeds to
launch dump subprocesses. -/
theorem C3_counterexample :
    s1.latest_backup = some 28799900 ∧
    dateOf (28799900 + w1.tzOffset) = dateOf (w1.now + w1.tzOffset) ∧
    ((check s1 w1).1.any fun e => match e with
      | Effect.popen _ _ => true
      | _ => false) = true := by
  refine ⟨rfl, by decide, by decide⟩

/-- Claim C1, evaluated at the failing input: with the dump subprocess
exiting 0, `create_full` still raises the dump-failure `IOError` and logs
a critical message (and, its result being `Unit`, returns no archive
path), while `create_partial` on the same zero exit returns the archive
path with no error as the claim demands (and on a non-zero exit raises
the dump-failure error with a critical log, as the claim also demands). -/
theorem C1_zero_exit_full_still_raises :
    (create_full "postgresql" cfg0 "/var/backups" true 0 0).2
      = Except.error BackupError.ioError ∧
    Effect.logCritical " - Unexpected exit code for backup"
      ∈ (create_full "postgresql" cfg0 "/var/backups" true 0 0).1 ∧
    (createPartial "postgresql" cfg0 "/var/backups" ["dsmr_stats_daystatistics"] true 0 0).2
      = Except.ok (partial_backup_file "postgresql" "/var/backups" 0) ∧
    (createPartial "postgresql" cfg0 "/var/backups" ["dsmr_stats_daystatistics"] true 0 1).2
      = Except.error BackupError.ioError ∧
    Effect.logCritical " - Unexpected exit code for backup"
      ∈ (createPartial "postgresql" cfg0 "/var/backups" ["dsmr_stats_daystatistics"] true 0 1).1 := by
  refine ⟨rfl, by decide, rfl, by decide, by decide⟩

/-- Claim C2, evaluated at the failing input: a due invocation of `check`
whose two dump subprocesses both exit 0 — the claim requires the cycle to
complete and `latest_backup` to be stamped and saved exactly once, but
the run aborts with the dump-failure error from `create_full` and no
settings write is recorded. -/
theorem C2_successful_cycle_never_saves :
    (check s0 w0).2 = Except.error BackupError.ioError ∧
    ((check s0 w0).1.all fun e => !(isSaveEffect e)) = true := by
  refine ⟨by decide, by decide⟩

/-!
Claim C7 — rotation behaviour of the file names: weekday-keyed full
backups collide on purpose, date-keyed partial backups never do, and the
scheduler files partial backups under `archive/Y/m`.
-/

theorem ymdChars_inj {y1 m1 d1 y2 m2 d2 : Nat} (hm1 : m1 ≤ 99) (hd1 : d1 ≤ 99)
    (hm2 : m2 ≤ 99) (hd2 : d2 ≤ 99)
    (h : ymdChars y1 m1 d1 = ymdChars y2 m2 d2) : y1 = y2 ∧ m1 = m2 ∧ d1 = d2 := by
  have hlen : (decStr y1).length = (decStr y2).length := by
    have hl := congrArg List.length h
    simp only [ymdChars, List.length_append, List.length_cons,
      pad2_len hm1, pad2_len hd1, pad2_len hm2, pad2_len hd2] at hl
    omega
  have h1 := List.append_inj h hlen
  have hy := decStr_inj h1.1
  have h2 := List.cons.inj h1.2
  have h3 := List.append_inj h2.2 (by rw [pad2_len hm1, pad2_len hm2])
  have hm := pad2_inj h3.1
  have h4 := List.cons.inj h3.2
  exact ⟨hy, hm, pad2_inj h4.2⟩

theorem osJoin_right_inj {f n1 n2 : String} (h1 : n1.data.head? ≠ some '/')
    (h2 : n2.data.head? ≠ some '/') (h : osJoin f n1 = osJoin f n2) : n1 = n2 := by
  unfold osJoin at h
  rw [if_neg h1, if_neg h2] at h
  by_cases hf : f.data = [] ∨ f.data.getLast? = some '/'
  · rw [if_pos hf, if_pos hf] at h
    have hd := congrArg String.data h
    simp only [String.data_append] at hd
    exact String.ext (List.append_cancel_left hd)
  · rw [if_neg hf, if_neg hf] at h
    have hd := congrArg String.data h
    simp only [String.data_append, List.append_assoc] at hd
    exact String.ext (List.append_cancel_left (List.append_cancel_left hd))

theorem partialName_head (vendor : String) (u : Int) :
    ("dsmrreader-" ++ vendor ++ "-partial-backup-" ++ ymdStr u ++ ".sql.gz").data.head?
      = some 'd' :=
  head_of_append (head_of_append (head_of_append (head_of_append
    (show ("dsmrreader-" : String).data.head? = some 'd' from rfl) vendor)
    "-partial-backup-") (ymdStr u)) ".sql.gz"

theorem partialName_inj {vendor : String} {u1 u2 : Int}
    (h : "dsmrreader-" ++ vendor ++ "-partial-backup-" ++ ymdStr u1 ++ ".sql.gz"
       = "dsmrreader-" ++ vendor ++ "-partial-backup-" ++ ymdStr u2 ++ ".sql.gz") :
    ymdStr u1 = ymdStr u2 := by
  have hd := congrArg String.data h
  simp only [String.data_append, List.append_assoc] at hd
  have h1 := List.append_cancel_left hd
  have h2 := List.append_cancel_left h1
  have h3 := List.append_cancel_left h2
  exact String.ext (List.append_cancel_right h3)

/-- Full-backup file names depend on the date only through its weekday. -/
theorem full_file_weekday (vendor folder : String) (u1 u2 : Int)
    (h : Int.emod u1 7 = Int.emod u2 7) :
    full_backup_file vendor folder u1 = full_backup_file vendor folder u2 := by
  simp [full_backup_file, weekdayName, h]

/-- Partial-backup file names differ whenever the calendar dates differ. -/
theorem partial_file_inj (vendor folder : String) (u1 u2 : Int) (y1 y2 : Int)
    (m1 d1 m2 d2 : Nat)
    (hc1 : civilFromDays u1 = (y1, m1, d1)) (hc2 : civilFromDays u2 = (y2, m2, d2))
    (hy1 : 1 ≤ y1) (hy2 : 1 ≤ y2)
    (hm1 : m1 ≤ 99) (hdd1 : d1 ≤ 99) (hm2 : m2 ≤ 99) (hdd2 : d2 ≤ 99)
    (hne : ¬(y1 = y2 ∧ m1 = m2 ∧ d1 = d2)) :
    partial_backup_file vendor folder u1 ≠ partial_backup_file vendor folder u2 := by
  intro h
  unfold partial_backup_file at h
  have hh1 : ("dsmrreader-" ++ vendor ++ "-partial-backup-" ++ ymdStr u1
      ++ ".sql.gz").data.head? ≠ some '/' := by
    rw [partialName_head]
    intro hc
    exact absurd (Option.some.inj hc) (by decide)
  have hh2 : ("dsmrreader-" ++ vendor ++ "-partial-backup-" ++ ymdStr u2
      ++ ".sql.gz").data.head? ≠ some '/' := by
    rw [partialName_head]
    intro hc
    exact absurd (Option.some.inj hc) (by decide)
  have hymd := partialName_inj (osJoin_right_inj hh1 hh2 h)
  have hch : ymdChars y1.toNat m1 d1 = ymdChars y2.toNat m2 d2 := by
    have hdata := congrArg String.data hymd
    simp only [ymdStr, hc1, hc2] at hdata
    exact hdata
  obtain ⟨hyn, hmn, hdn⟩ := ymdChars_inj hm1 hdd1 hm2 hdd2 hch
  exact hne ⟨by omega, hmn, hdn⟩

theorem osJoin_flat {a b : String} (hb : b.data.head? ≠ some '/')
    (ha1 : a.data ≠ []) (ha2 : a.data.getLast? ≠ some '/') :
    osJoin a b = a ++ "/" ++ b := by
  unfold osJoin
  rw [if_neg hb, if_neg (not_or.mpr ⟨ha1, ha2⟩)]

theorem getLast_append_of_ne {l l' : List Char} {x : Char} (h : l'.getLast? = some x) :
    (l ++ l').getLast? = some x := by
  rw [List.getLast?_append, h]
  rfl

theorem getLast_append_ne_slash {l l' : List Char} (hne : l' ≠ [])
    (h : l'.getLast? ≠ some '/') : (l ++ l').getLast? ≠ some '/' := by
  rw [List.getLast?_append]
  cases hm : l'.getLast? with
  | none => exact absurd (List.getLast?_eq_none_iff.mp hm) hne
  | some c =>
    rw [hm] at h
    simpa [Option.or] using h

theorem head_ne_slash_of_digits {xs : List Char} (hne : xs ≠ [])
    (hd : ∀ c ∈ xs, ∃ k, k < 10 ∧ c = digitChar k) : xs.head? ≠ some '/' := by
  cases xs with
  | nil => exact absurd rfl hne
  | cons c rest =>
    intro hc
    obtain ⟨k, hk, hck⟩ := hd c (List.mem_cons_self c rest)
    exact digitChar_ne_slash hk (by rw [← hck]; exact Option.some.inj hc)

theorem getLast_ne_slash_of_digits {xs : List Char}
    (hd : ∀ c ∈ xs, ∃ k, k < 10 ∧ c = digitChar k) : xs.getLast? ≠ some '/' := by
  intro hc
  have hmem : '/' ∈ xs := List.mem_of_mem_getLast? (Option.mem_def.mpr hc)
  obtain ⟨k, hk, hck⟩ := hd '/' hmem
  exact digitChar_ne_slash hk hck.symm

theorem pad2_ne_nil (n : Nat) : pad2 n ≠ [] := by
  by_cases h : n < 10
  · simp [pad2, h]
  · simp only [pad2, h, if_false]
    exact decStr_ne_nil n

theorem yearStr_head (day : Int) : (yearStr day).data.head? ≠ some '/' :=
  head_ne_slash_of_digits (decStr_ne_nil _) (fun c hc => decStr_digits hc)

theorem yearStr_ne_nil (day : Int) : (yearStr day).data ≠ [] := decStr_ne_nil _

theorem yearStr_last (day : Int) : (yearStr day).data.getLast? ≠ some '/' :=
  getLast_ne_slash_of_digits (fun c hc => decStr_digits hc)

theorem monthStr_head (day : Int) : (monthStr day).data.head? ≠ some '/' :=
  head_ne_slash_of_digits (pad2_ne_nil _) (fun c hc => pad2_digits hc)

theorem monthStr_ne_nil (day : Int) : (monthStr day).data ≠ [] := pad2_ne_nil _

theorem monthStr_last (day : Int) : (monthStr day).data.getLast? ≠ some '/' :=
  getLast_ne_slash_of_digits (fun c hc => pad2_digits hc)

/-- The `os.path.join(backup_dir, 'archive', Y, m)` chain of `check`
flattens to the `archive/year/month` subdirectory of the backup
directory. -/
theorem archive_folder_flat (B Y M : String) (hB1 : B.data ≠ [])
    (hB2 : B.data.getLast? ≠ some '/') (hY1 : Y.data.head? ≠ some '/') (hY2 : Y.data ≠ [])
    (hY3 : Y.data.getLast? ≠ some '/') (hM1 : M.data.head? ≠ some '/') :
    osJoin (osJoin (osJoin B "archive") Y) M = B ++ "/archive/" ++ Y ++ "/" ++ M := by
  have j1 : osJoin B "archive" = B ++ "/" ++ "archive" :=
    osJoin_flat (by decide) hB1 hB2
  have j1ne : (B ++ "/" ++ "archive").data ≠ [] := by
    simp [String.data_append]
  have j1last : (B ++ "/" ++ "archive").data.getLast? = some 'e' := by
    rw [String.data_append]
    exact getLast_append_of_ne rfl
  have j2 : osJoin (B ++ "/" ++ "archive") Y = B ++ "/" ++ "archive" ++ "/" ++ Y :=
    osJoin_flat hY1 j1ne (by rw [j1last]; intro hc; exact absurd (Option.some.inj hc) (by decide))
  have j2ne : (B ++ "/" ++ "archive" ++ "/" ++ Y).data ≠ [] := by
    simp only [String.data_append]
    intro hc
    exact hY2 (List.append_eq_nil.mp hc).2
  have j2last : (B ++ "/" ++ "archive" ++ "/" ++ Y).data.getLast? ≠ some '/' := by
    rw [String.data_append]
    exact getLast_append_ne_slash hY2 hY3
  have j3 : osJoin (B ++ "/" ++ "archive" ++ "/" ++ Y) M
      = B ++ "/" ++ "archive" ++ "/" ++ Y ++ "/" ++ M :=
    osJoin_flat hM1 j2ne j2last
  rw [j1, j2, j3]
  apply String.ext
  simp only [String.data_append, List.append_assoc]
  congr 1

/-- Whenever the vendor is supported for the partial scope, the archive
file is opened at the joined destination. -/
theorem openArchive_mem_partial {vendor : String} {cfg : DbConfig} (folder : String)
    {tables : List String} (fe : Bool) (u x : Int) {c : List String}
    (hcmd : partialCommand vendor cfg tables = Except.ok c) :
    Effect.openArchive (partial_backup_file vendor folder u) 9
      ∈ (createPartial vendor cfg folder tables fe u x).1 := by
  by_cases hx : (some x : Option Int) = some 0
  · simp [createPartial, hcmd, hx, mkdirTrace]
  · simp [createPartial, hcmd, hx, mkdirTrace]

/-- Every effect of the partial step appears in the cycle's trace. -/
theorem mem_runBackupCycle_of_mem_partial {s : BackupSettings} {w : CheckWorld} {e : Effect}
    (h : e ∈ (createPartial w.vendor w.cfg
      (osJoin (osJoin (osJoin (get_backup_directory w.cwd w.base_dir s.folder none) "archive")
        (yearStr (dateOf (w.now + w.tzOffset)))) (monthStr (dateOf (w.now + w.tzOffset))))
      [w.statsTable] w.partialFolderExists (dateOf w.now) w.partialExit).1) :
    e ∈ (runBackupCycle s w).1 := by
  simp only [runBackupCycle]
  split
  · exact h
  · split
    · exact List.mem_append_left _ h
    · exact List.mem_append_left _ (List.mem_append_left _ h)

/-- Claim C7 part 3: a due `check` opens the partial archive inside
`{backup_dir}/archive/{year}/{month}`. -/
theorem check_archive_location (s : BackupSettings) (w : CheckWorld)
    (h1 : s.daily_backup = true) (h2 : s.latest_backup = none)
    (hv : w.vendor = "postgresql" ∨ w.vendor = "mysql")
    (hB1 : (get_backup_directory w.cwd w.base_dir s.folder none).data ≠ [])
    (hB2 : (get_backup_directory w.cwd w.base_dir s.folder none).data.getLast? ≠ some '/') :
    Effect.openArchive
      (get_backup_directory w.cwd w.base_dir s.folder none ++ "/archive/"
        ++ yearStr (dateOf (w.now + w.tzOffset)) ++ "/" ++ monthStr (dateOf (w.now + w.tzOffset))
        ++ "/" ++ ("dsmrreader-" ++ w.vendor ++ "-partial-backup-"
          ++ ymdStr (dateOf w.now) ++ ".sql.gz")) 9
      ∈ (check s w).1 := by
  rw [check_due w h1 h2]
  set B := get_backup_directory w.cwd w.base_dir s.folder none with hBdef
  set Y := yearStr (dateOf (w.now + w.tzOffset)) with hYdef
  set M := monthStr (dateOf (w.now + w.tzOffset)) with hMdef
  have hflat : osJoin (osJoin (osJoin B "archive") Y) M = B ++ "/archive/" ++ Y ++ "/" ++ M :=
    archive_folder_flat B Y M hB1 hB2 (hYdef ▸ yearStr_head _) (hYdef ▸ yearStr_ne_nil _)
      (hYdef ▸ yearStr_last _) (hMdef ▸ monthStr_head _)
  obtain ⟨c, hcmd⟩ : ∃ c, partialCommand w.vendor w.cfg [w.statsTable] = Except.ok c := by
    rcases hv with hv | hv <;> rw [hv] <;> exact ⟨_, rfl⟩
  have hmem := openArchive_mem_partial (osJoin (osJoin (osJoin B "archive") Y) M)
    w.partialFolderExists (dateOf w.now) w.partialExit hcmd
  have hpath : partial_backup_file w.vendor (osJoin (osJoin (osJoin B "archive") Y) M)
      (dateOf w.now)
      = B ++ "/archive/" ++ Y ++ "/" ++ M ++ "/"
        ++ ("dsmrreader-" ++ w.vendor ++ "-partial-backup-"
          ++ ymdStr (dateOf w.now) ++ ".sql.gz") := by
    unfold partial_backup_file
    rw [hflat]
    apply osJoin_flat
    · rw [partialName_head]
      intro hc
      exact absurd (Option.some.inj hc) (by decide)
    · simp only [String.data_append]
      intro hc
      exact (hMdef ▸ monthStr_ne_nil _) (List.append_eq_nil.mp hc).2
    · rw [String.data_append]
      exact getLast_append_ne_slash (hMdef ▸ monthStr_ne_nil _) (hMdef ▸ monthStr_last _)
  rw [hpath] at hmem
  exact mem_runBackupCycle_of_mem_partial hmem

/-- Claim C7: full-backup file names agree whenever the dates share a
weekday (7-day overwrite rotation); partial-backup file names differ
whenever the calendar dates `(year, month, day)` differ (the bounds
hypotheses record that the fields are calendar fields); and a due `check`
opens the partial archive under the `archive/{year}/{month}` subdirectory
of the backup directory. -/
theorem C7_rotation_naming :
    (∀ vendor folder u1 u2, Int.emod u1 7 = Int.emod u2 7 →
      full_backup_file vendor folder u1 = full_backup_file vendor folder u2) ∧
    (∀ vendor folder u1 u2 y1 y2 m1 d1 m2 d2,
      civilFromDays u1 = (y1, m1, d1) → civilFromDays u2 = (y2, m2, d2) →
      1 ≤ y1 → 1 ≤ y2 → m1 ≤ 99 → d1 ≤ 99 → m2 ≤ 99 → d2 ≤ 99 →
      ¬(y1 = y2 ∧ m1 = m2 ∧ d1 = d2) →
      partial_backup_file vendor folder u1 ≠ partial_backup_file vendor folder u2) ∧
    (∀ s w, s.daily_backup = true → s.latest_backup = none →
      w.vendor = "postgresql" ∨ w.vendor = "mysql" →
      (get_backup_directory w.cwd w.base_dir s.folder none).data ≠ [] →
      (get_backup_directory w.cwd w.base_dir s.folder none).data.getLast? ≠ some '/' →
      Effect.openArchive
        (get_backup_directory w.cwd w.base_dir s.folder none ++ "/archive/"
          ++ yearStr (dateOf (w.now + w.tzOffset)) ++ "/"
          ++ monthStr (dateOf (w.now + w.tzOffset))
          ++ "/" ++ ("dsmrreader-" ++ w.vendor ++ "-partial-backup-"
            ++ ymdStr (dateOf w.now) ++ ".sql.gz")) 9
        ∈ (check s w).1) :=
  ⟨full_file_weekday, partial_file_inj,
   fun s w h1 h2 hv hB1 hB2 => check_archive_location s w h1 h2 hv hB1 hB2⟩

/-- Claim C7 witness: day 0 and day 7 share a weekday and collide; day 0
and day 1 are distinct dates and do not; and the concrete due run files
its partial backup under `archive/1970/01`. -/
theorem C7_rotation_naming_witness :
    full_backup_file "postgresql" "/var/backups" 0
      = full_backup_file "postgresql" "/var/backups" 7 ∧
    partial_backup_file "postgresql" "/var/backups" 0
      ≠ partial_backup_file "postgresql" "/var/backups" 1 ∧
    Effect.openArchive
      (get_backup_directory w0.cwd w0.base_dir s0.folder none ++ "/archive/"
        ++ yearStr (dateOf (w0.now + w0.tzOffset)) ++ "/"
        ++ monthStr (dateOf (w0.now + w0.tzOffset))
        ++ "/" ++ ("dsmrreader-" ++ w0.vendor ++ "-partial-backup-"
          ++ ymdStr (dateOf w0.now) ++ ".sql.gz")) 9
      ∈ (check s0 w0).1 :=
  ⟨C7_rotation_naming.1 "postgresql" "/var/backups" 0 7 (by decide),
   C7_rotation_naming.2.1 "postgresql" "/var/backups" 0 1 1970 1970 1 1 1 2
     (by decide) (by decide) (by decide) (by decide) (by decide) (by decide) (by decide)
     (by decide) (by decide),
   C7_rotation_naming.2.2 s0 w0 rfl rfl (Or.inl rfl) (by decide) (by decide)⟩

/-!
Claim C8 — directory resolution.
-/

theorem take3_stable {xs : List Char} (h : 2 ≤ xs.length) (y : Char) (r s : List Char) :
    (xs ++ y :: r).take 3 = (xs ++ y :: s).take 3 := by
  rw [List.take_append_eq_append_take, List.take_append_eq_append_take]
  congr 1
  have h01 : 3 - xs.length = 0 ∨ 3 - xs.length = 1 := by omega
  rcases h01 with h0 | h1
  · rw [h0]
    simp
  · rw [h1]
    simp

/-- Collapsing `base/../x` when `base = d "/" c` with `c` a real final
component: `normpath` sends both spellings to the same place, so the
relative branch resolves one level above the base directory. -/
theorem normpath_collapse (d c p : String)
    (hd1 : d.data.head? = some '/') (hd2 : d.data.getLast? ≠ some '/')
    (hc1 : c.data ≠ []) (hc2 : ∀ ch ∈ c.data, ch ≠ '/') (hc3 : c ≠ ".") (hc4 : c ≠ "..") :
    normpath (d ++ "/" ++ c ++ "/" ++ ".." ++ "/" ++ p) = normpath (d ++ "/" ++ p) := by
  obtain ⟨rest, hdrest⟩ : ∃ rest, d.data = '/' :: rest := by
    cases hdd : d.data with
    | nil => rw [hdd] at hd1; simp at hd1
    | cons a as =>
      rw [hdd] at hd1
      exact ⟨as, by rw [show a = '/' from Option.some.inj hd1]⟩
  have hrest_ne : rest ≠ [] := by
    intro hr
    rw [hr] at hdrest
    rw [hdrest] at hd2
    exact hd2 rfl
  have hlen2 : 2 ≤ d.data.length := by
    rw [hdrest]
    cases rest with
    | nil => exact absurd rfl hrest_ne
    | cons b bs => simp
  have hcdot : c.data ≠ ['.'] := fun hcc => hc3 (String.ext hcc)
  have hcdd : c.data ≠ ['.', '.'] := fun hcc => hc4 (String.ext hcc)
  have hL : (d ++ "/" ++ c ++ "/" ++ ".." ++ "/" ++ p).data
      = d.data ++ '/' :: (c.data ++ '/' :: (['.', '.'] ++ '/' :: p.data)) := by
    simp only [String.data_append, List.append_assoc]
    rfl
  have hR : (d ++ "/" ++ p).data = d.data ++ '/' :: p.data := by
    simp only [String.data_append, List.append_assoc]
    rfl
  have hheadL : (d.data ++ '/' :: (c.data ++ '/' :: (['.', '.'] ++ '/' :: p.data))).head?
      = some '/' := by
    rw [hdrest]
    rfl
  have hheadR : (d.data ++ '/' :: p.data).head? = some '/' := by
    rw [hdrest]
    rfl
  have hsplitL : splitSep (d.data ++ '/' :: (c.data ++ '/' :: (['.', '.'] ++ '/' :: p.data)))
      = splitSep d.data ++ ([c.data] ++ ([['.', '.']] ++ splitSep p.data)) := by
    rw [splitSep_append, splitSep_append, splitSep_append, splitSep_no_sep hc2,
      show splitSep ['.', '.'] = [['.', '.']] from rfl]
  have hsplitR : splitSep (d.data ++ '/' :: p.data) = splitSep d.data ++ splitSep p.data :=
    splitSep_append _ _
  have hfold : ∀ b : Bool,
      (splitSep d.data ++ ([c.data] ++ ([['.', '.']] ++ splitSep p.data))).foldl
        (normStep b) []
      = (splitSep d.data ++ splitSep p.data).foldl (normStep b) [] := by
    intro b
    rw [List.foldl_append, List.foldl_append, List.foldl_append, List.foldl_append]
    congr 1
    exact normStep_pop hc1 hcdot hcdd
  have htake := take3_stable hlen2 '/' (c.data ++ '/' :: (['.', '.'] ++ '/' :: p.data)) p.data
  have hnsl := nslOf_congr htake
  have hnd : normData (d.data ++ '/' :: (c.data ++ '/' :: (['.', '.'] ++ '/' :: p.data)))
      = normData (d.data ++ '/' :: p.data) := by
    unfold normData
    rw [hsplitL, hsplitR, hnsl, hheadL, hheadR, hfold]
  unfold normpath
  rw [hL, hR, hnd]

/-- Claim C8: a root-anchored effective path resolves to its normalized
absolute form, independent of the base directory (and is returned
unchanged when already normalized); a relative effective path resolves
inside the directory one level above the application base directory
(`base = d/c` resolves to `normpath (d/path)`). -/
theorem C8_directory_resolution (cwd base folderSetting : String) (ov : Option String) :
    ((effective_backup_directory folderSetting ov).data.head? = some '/' →
      get_backup_directory cwd base folderSetting ov
        = normpath (effective_backup_directory folderSetting ov) ∧
      (normpath (effective_backup_directory folderSetting ov)
          = effective_backup_directory folderSetting ov →
        get_backup_directory cwd base folderSetting ov
          = effective_backup_directory folderSetting ov)) ∧
    (∀ d c, (effective_backup_directory folderSetting ov).data.head? ≠ some '/' →
      base = d ++ "/" ++ c →
      d.data.head? = some '/' → d.data.getLast? ≠ some '/' →
      c.data ≠ [] → (∀ ch ∈ c.data, ch ≠ '/') → c ≠ "." → c ≠ ".." →
      get_backup_directory cwd base folderSetting ov
        = normpath (d ++ "/" ++ effective_backup_directory folderSetting ov)) := by
  constructor
  · intro hp
    have h1 : get_backup_directory cwd base folderSetting ov
        = abspath cwd (effective_backup_directory folderSetting ov) := by
      unfold get_backup_directory
      rw [if_pos hp]
    have h2 : abspath cwd (effective_backup_directory folderSetting ov)
        = normpath (effective_backup_directory folderSetting ov) := by
      unfold abspath
      rw [if_pos hp]
    exact ⟨h1.trans h2, fun hn => (h1.trans h2).trans hn⟩
  · intro d c hp hbase hd1 hd2 hc1 hc2 hc3 hc4
    unfold get_backup_directory
    rw [if_neg hp]
    have hbne : base.data ≠ [] := by
      rw [hbase]
      simp only [String.data_append]
      intro hc
      exact hc1 (List.append_eq_nil.mp hc).2
    have hblast : base.data.getLast? ≠ some '/' := by
      rw [hbase, String.data_append]
      refine getLast_append_ne_slash hc1 ?_
      intro hcl
      exact hc2 '/' (List.mem_of_mem_getLast? (Option.mem_def.mpr hcl)) rfl
    have hj1 : osJoin base ".." = base ++ "/" ++ ".." := osJoin_flat (by decide) hbne hblast
    have hj1ne : (base ++ "/" ++ "..").data ≠ [] := by
      simp [String.data_append]
    have hj1last : (base ++ "/" ++ "..").data.getLast? = some '.' := by
      rw [String.data_append]
      exact getLast_append_of_ne rfl
    have hj2 : osJoin (base ++ "/" ++ "..") (effective_backup_directory folderSetting ov)
        = base ++ "/" ++ ".." ++ "/" ++ effective_backup_directory folderSetting ov := by
      refine osJoin_flat hp hj1ne ?_
      rw [hj1last]
      intro hcx
      exact absurd (Option.some.inj hcx) (by decide)
    rw [hj1, hj2]
    have hbhead : base.data.head? = some '/' := by
      rw [hbase]
      exact head_of_append (head_of_append hd1 "/") c
    have habshead : (base ++ "/" ++ ".." ++ "/"
        ++ effective_backup_directory folderSetting ov).data.head? = some '/' :=
      head_of_append (head_of_append (head_of_append (head_of_append hbhead "/") "..") "/") _
    unfold abspath
    rw [if_pos habshead, hbase]
    exact normpath_collapse d c (effective_backup_directory folderSetting ov)
      hd1 hd2 hc1 hc2 hc3 hc4

/-- Claim C8 witness: an absolute, already-normalized configured folder is
returned unchanged, and a relative one resolves one level above the base
directory. -/
theorem C8_directory_resolution_witness :
    get_backup_directory "/" "/app/src" "/var/backups" none = "/var/backups" ∧
    get_backup_directory "/" "/app/src" "backups" none = normpath ("/app" ++ "/" ++ "backups") :=
  ⟨((C8_directory_resolution "/" "/app/src" "/var/backups" none).1 (by decide)).2 (by decide),
   (C8_directory_resolution "/" "/app/src" "backups" none).2 "/app" "src" (by decide) rfl
     (by decide) (by decide) (by decide) (by decide) (by decide) (by decide)⟩

end DsmrBackup
